import Mathlib

/-
  Verification development for the GuyeuxMobile traffic simulation.

  The definitions below are a shallow embedding of the Python sources:
    - src/models/intersections/base_intersection.py
    - src/models/intersections/traffic_light_intersection.py
    - src/models/edges/base_edge.py
    - src/models/edges/cellular.py
    - src/models/edges/fluid.py
    - src/core/graph.py
    - src/core/simulation.py
    - src/entities/vehicle.py

  Machine floats are modelled by rationals, Python ints by Int or Nat,
  Python lists by Lean lists, and dicts by association lists.  Python
  `random.random()` / `random.uniform(a, b)` draws are passed in as an
  explicit stream of rationals.  Fallible Python code (raised exceptions)
  is modelled with Except.
-/

namespace GuyeuxMobile

/-- Exceptions that the embedded Python code can raise. -/
inductive PyErr where
  /-- `raise NotImplementedError` (as in BaseEdge's stub methods). -/
  | notImplementedError : PyErr
  /-- `raise RuntimeError(msg)` (as in RoadGraph.get_edge / get_path). -/
  | runtimeError : String → PyErr
deriving DecidableEq, Repr

/-! ## Intersection controllers

Embedding of `src/models/intersections/base_intersection.py` and
`src/models/intersections/traffic_light_intersection.py`. -/

/-- State of `BaseIntersection` (the uncontrolled intersection): it only
stores the node it is attached to. -/
structure BaseIntersection where
  node_id : String
deriving DecidableEq, Repr

/-- `BaseIntersection.update`: `pass` — the default controller does nothing. -/
def BaseIntersection.update (b : BaseIntersection) : BaseIntersection := b

/-- `BaseIntersection.can_pass`: by default all traffic is allowed to pass. -/
def BaseIntersection.can_pass (_ : BaseIntersection) (_src : String) : Bool := true

/-- `BaseIntersection.get_state`: always `"GREEN"`. -/
def BaseIntersection.get_state (_ : BaseIntersection) (_src : String) : String := "GREEN"

/-- State of `TrafficLightIntersection`: the configured incoming node list
and green duration, plus the mutable round-robin state
(`current_green_idx`, `timer`). -/
structure TrafficLightIntersection where
  node_id : String
  incoming_nodes : List String
  duration : Int
  current_green_idx : Nat
  timer : Int
deriving DecidableEq, Repr

/-- Constructor `TrafficLightIntersection.__init__`: the index starts at 0
and the timer at 0. -/
def TrafficLightIntersection.init (node : String) (incoming : List String)
    (duration : Int) : TrafficLightIntersection :=
  { node_id := node
    incoming_nodes := incoming
    duration := duration
    current_green_idx := 0
    timer := 0 }

/-- `TrafficLightIntersection.update`: with an empty incoming list the method
returns immediately; otherwise the timer is incremented and, once it reaches
`duration`, it is reset and the green index advances cyclically. -/
def TrafficLightIntersection.update (tl : TrafficLightIntersection) :
    TrafficLightIntersection :=
  if tl.incoming_nodes = [] then tl
  else if tl.timer + 1 ≥ tl.duration then
    { tl with timer := 0
              current_green_idx :=
                (tl.current_green_idx + 1) % tl.incoming_nodes.length }
  else { tl with timer := tl.timer + 1 }

/-- `TrafficLightIntersection.can_pass`: true iff `src` is the incoming node
at the current green index (unconditionally true when the incoming list is
empty).  The Python code indexes `incoming_nodes[current_green_idx]`; that
access is modelled with `List.get?`, which agrees with Python whenever the
index is in range (as it is in every reachable state). -/
def TrafficLightIntersection.can_pass (tl : TrafficLightIntersection)
    (src : String) : Bool :=
  if tl.incoming_nodes = [] then true
  else tl.incoming_nodes.get? tl.current_green_idx == some src

/-- `TrafficLightIntersection.get_state`: `"GREEN"` or `"RED"` for the given
incoming road, using the same indexing as `can_pass`. -/
def TrafficLightIntersection.get_state (tl : TrafficLightIntersection)
    (src : String) : String :=
  if tl.incoming_nodes = [] then "GREEN"
  else if tl.incoming_nodes.get? tl.current_green_idx == some src then "GREEN"
  else "RED"

/-! ## Cellular edge model

Embedding of `src/models/edges/cellular.py` (class `CellularEdge`, the
canonical cellular model under `models/edges/`), together with the two exit
operations it inherits unimplemented from `src/models/edges/base_edge.py`. -/

/-- The projection of a Python `Vehicle` that the cellular model reads and
writes: its id and its (integer) speed. -/
structure CellVehicle where
  id : String
  speed : Int
deriving DecidableEq, Repr

/-- State of `CellularEdge`: `distance` cells each holding at most one
vehicle, the parameters `vmax` and `prob_slow`, and the FIFO `entry_queue`
fed by rejected insertions. -/
structure CellularEdge where
  distance : Nat
  vmax : Int
  prob_slow : ℚ
  cells : List (Option CellVehicle)
  entry_queue : List CellVehicle
deriving DecidableEq, Repr

/-- Constructor `CellularEdge.__init__`: all cells empty, empty queue. -/
def CellularEdge.init (distance : Nat) (vmax : Int) (prob_slow : ℚ) :
    CellularEdge :=
  { distance := distance
    vmax := vmax
    prob_slow := prob_slow
    cells := List.replicate distance none
    entry_queue := [] }

/-- `CellularEdge.insert_vehicle`: if cell 0 is empty, place the vehicle
there with speed `min(vehicle.speed, vmax)` and return True; otherwise put
the vehicle into `entry_queue` and return False.  (Python indexes
`cells[0]`, which assumes `distance > 0`; the access is modelled with
`getD`.) -/
def CellularEdge.insert_vehicle (e : CellularEdge) (v : CellVehicle) :
    CellularEdge × Bool :=
  if e.cells.getD 0 none = none then
    ({ e with cells := e.cells.set 0 (some { v with speed := min v.speed e.vmax }) },
      true)
  else
    ({ e with entry_queue := e.entry_queue ++ [v] }, false)

/-- Loop state of `CellularEdge.update`: the mutated cells, the tracked
`last_vehicle_pos` obstacle, the accumulated `exiting` list, and the number
of `random.random()` draws consumed so far. -/
structure CellUpdateAcc where
  cells : List (Option CellVehicle)
  last_vehicle_pos : Int
  exiting : List CellVehicle
  draws : Nat
deriving Repr

/-- One iteration of the right-to-left cell loop in `CellularEdge.update`,
for the occupied-or-empty cell at position `pos`.  `rand` supplies the
successive `random.random()` draws. -/
def CellularEdge.update_cell (vmax : Int) (distance : Nat) (prob_slow : ℚ)
    (allow_exit : Bool) (rand : Nat → ℚ) (acc : CellUpdateAcc) (pos : Nat) :
    CellUpdateAcc :=
  match acc.cells.getD pos none with
  | none => acc
  | some v =>
    let distance_to_next : Int := acc.last_vehicle_pos - pos - 1
    let s1 : Int := min distance_to_next (min (v.speed + 1) vmax)
    let s2 : Int :=
      if rand acc.draws < prob_slow ∧ s1 > 0 then max 0 (s1 - 1) else s1
    let next_pos : Int := pos + s2
    if next_pos ≥ (distance : Int) then
      if allow_exit then
        { cells := acc.cells.set pos none
          last_vehicle_pos := acc.last_vehicle_pos
          exiting := acc.exiting ++ [{ v with speed := s2 }]
          draws := acc.draws + 1 }
      else
        let target : Nat := distance - 1
        let cells1 :=
          if target ≠ pos then (acc.cells.set target (some { v with speed := 0 })).set pos none
          else acc.cells.set pos (some { v with speed := 0 })
        { cells := cells1
          last_vehicle_pos := (target : Int)
          exiting := acc.exiting
          draws := acc.draws + 1 }
    else
      let npos : Nat := next_pos.toNat
      let cells1 :=
        if acc.cells.getD npos none = none then
          (acc.cells.set npos (some { v with speed := s2 })).set pos none
        else acc.cells.set pos (some { v with speed := s2 })
      let last1 : Int :=
        if cells1.getD npos none ≠ none then next_pos else (pos : Int)
      { cells := cells1
        last_vehicle_pos := last1
        exiting := acc.exiting
        draws := acc.draws + 1 }

/-- `CellularEdge.update(allow_exit)`: the virtual obstacle starts at
`distance + 1`, or at `distance` when the signal is red; cells are processed
from `distance - 1` down to 0; finally, if the entry queue is nonempty and
cell 0 is now free, the head of the queue enters cell 0.  Returns the
updated edge and the `exiting` list. -/
def CellularEdge.update (e : CellularEdge) (allow_exit : Bool)
    (rand : Nat → ℚ) : CellularEdge × List CellVehicle :=
  let start : CellUpdateAcc :=
    { cells := e.cells
      last_vehicle_pos :=
        if allow_exit then (e.distance : Int) + 1 else (e.distance : Int)
      exiting := []
      draws := 0 }
  let acc := ((List.range e.distance).reverse).foldl
    (CellularEdge.update_cell e.vmax e.distance e.prob_slow allow_exit rand)
    start
  match e.entry_queue, acc.cells.getD 0 none with
  | q :: qs, none =>
    ({ e with cells := acc.cells.set 0 (some q), entry_queue := qs }, acc.exiting)
  | _, _ =>
    ({ e with cells := acc.cells }, acc.exiting)

/-- `CellularEdge.peek_last_vehicle`: the class `CellularEdge` defines no
such method, so attribute lookup finds `BaseEdge.peek_last_vehicle`
(base_edge.py), whose body is `raise NotImplementedError`. -/
def CellularEdge.peek_last_vehicle (_ : CellularEdge) :
    Except PyErr (Option CellVehicle) :=
  Except.error PyErr.notImplementedError

/-- `CellularEdge.pop_last_vehicle`: likewise inherited from `BaseEdge`,
whose body is `raise NotImplementedError`. -/
def CellularEdge.pop_last_vehicle (_ : CellularEdge) :
    Except PyErr (Option CellVehicle × CellularEdge) :=
  Except.error PyErr.notImplementedError

/-- Number of occupied cells (`sum(1 for cell in self.cells if cell is not
None)`). -/
def CellularEdge.num_vehicles (e : CellularEdge) : Nat :=
  e.cells.countP (fun c => c.isSome)

/-- `CellularEdge.evaluate_weight`: base cost `distance`, multiplied by 3
above 80 percent occupation and by 1.5 above 50 percent.  (The division
assumes `distance > 0`, as in Python.) -/
def CellularEdge.evaluate_weight (e : CellularEdge) : ℚ :=
  let base_cost : ℚ := (e.distance : ℚ)
  let occupation : ℚ := (e.num_vehicles : ℚ) / (e.distance : ℚ)
  if occupation > 4/5 then base_cost * 3
  else if occupation > 1/2 then base_cost * (3/2)
  else base_cost

/-- `CellularEdge.get_occupation_ratio`: occupied fraction, 0 for a
zero-length edge. -/
def CellularEdge.get_occupation_ratio (e : CellularEdge) : ℚ :=
  if e.distance > 0 then (e.num_vehicles : ℚ) / (e.distance : ℚ) else 0

/-- What the simulation actually runs per cellular edge in step 3 of
`internal_step` (simulation.py line 97): `edge.update()` with no arguments,
so `allow_exit` takes its default value True, whatever the intersection
says; the returned exiting list is discarded by the caller. -/
def Simulation.update_cellular_edge (e : CellularEdge) (rand : Nat → ℚ) :
    CellularEdge × List CellVehicle :=
  e.update true rand

/-! ## Fluid edge model

Embedding of `src/models/edges/fluid.py` (class `FluidEdge`).  Vehicles are
referenced by id; the `positions` dict is an association list.  The
per-vehicle `random.uniform(0.9, 1.1)` draws of `update` are supplied as an
explicit `variance` stream.  `FluidEdge.update` writes each `vehicle.speed`
as well, but no fluid operation ever reads it back, so the embedding tracks
positions only. -/

/-- Python `int(q)` on a rational: truncation toward zero. -/
def pyInt (q : ℚ) : Int := Int.tdiv q.num (q.den : Int)

/-- Set key `k` to `x` in an association list, replacing an existing entry
in place or appending a new one (dict assignment). -/
def setPos (ps : List (String × ℚ)) (k : String) (x : ℚ) : List (String × ℚ) :=
  match ps with
  | [] => [(k, x)]
  | (k', y) :: rest =>
    if k' = k then (k, x) :: rest else (k', y) :: setPos rest k x

/-- Delete key `k` from an association list (dict `del`). -/
def delPos (ps : List (String × ℚ)) (k : String) : List (String × ℚ) :=
  match ps with
  | [] => []
  | (k', y) :: rest => if k' = k then rest else (k', y) :: delPos rest k

/-- State of `FluidEdge`: length, vmax and maximum density parameters, the
vehicle list (Python insertion order) and the id-to-position dict. -/
structure FluidEdge where
  distance : Nat
  vmax : ℚ
  density_max : ℚ
  vehicles : List String
  positions : List (String × ℚ)
deriving DecidableEq, Repr

/-- Constructor `FluidEdge.__init__`: no vehicles, empty position dict. -/
def FluidEdge.init (distance : Nat) (vmax : ℚ) (density_max : ℚ) : FluidEdge :=
  { distance := distance
    vmax := vmax
    density_max := density_max
    vehicles := []
    positions := [] }

/-- `self.max_vehicles = int(self.distance * self.density_max)`, computed at
construction from the two immutable parameters. -/
def FluidEdge.max_vehicles (e : FluidEdge) : Int :=
  pyInt ((e.distance : ℚ) * e.density_max)

/-- `FluidEdge.insert_vehicle`: False if the edge is at capacity; otherwise
the vehicle is appended with position 0.0 (and its speed set to 0, tracked
on the Vehicle record at the call site). -/
def FluidEdge.insert_vehicle (e : FluidEdge) (vid : String) : FluidEdge × Bool :=
  if (e.vehicles.length : Int) ≥ e.max_vehicles then (e, false)
  else
    ({ e with vehicles := e.vehicles ++ [vid]
              positions := setPos e.positions vid 0 }, true)

/-- Stable insertion into a descending-by-key list: the new element goes
after every element with a key greater than or equal to its own, as in
Python's stable `sorted(..., reverse=True)`. -/
def fluidSortInsert (key : String → ℚ) (x : String) : List String → List String
  | [] => [x]
  | y :: ys =>
    if key y ≥ key x then y :: fluidSortInsert key x ys else x :: y :: ys

/-- `sorted(self.vehicles, key=position, reverse=True)`: stable descending
sort by position. -/
def fluidSortDesc (key : String → ℚ) (l : List String) : List String :=
  l.foldl (fun acc x => fluidSortInsert key x acc) []

/-- The new position of one vehicle in the loop of `FluidEdge.update`: the
tentative position `current + current_speed * variance` clamped to the edge
end and to half a meter behind the already-updated leader ahead of it
(`leaderPos`); the variance draw is only consulted when the speed factor is
above the 0.2 congestion threshold. -/
def fluidNewPos (distance : Nat) (current_speed speed_factor : ℚ)
    (variance : Nat → ℚ) (ps : List (String × ℚ)) (leaderPos : Option ℚ)
    (vid : String) (k : Nat) : ℚ :=
  let current_pos := (ps.lookup vid).getD 0
  let var := if speed_factor > 1/5 then variance k else 1
  let veh_speed := current_speed * var
  let np1 := current_pos + veh_speed
  let np2 := if np1 > (distance : ℚ) then (distance : ℚ) else np1
  match leaderPos with
  | none => np2
  | some lp => if np2 ≥ lp - 1/2 then lp - 1/2 else np2

/-- The leader-to-follower loop of `FluidEdge.update`: vehicles are visited
most-advanced first, each one's position is written into the dict before
the next (its follower) reads it.  `leaderPos` is the previous iteration's
stored position, `k` counts the `random.uniform` draws. -/
def fluidUpdateGo (distance : Nat) (current_speed speed_factor : ℚ)
    (variance : Nat → ℚ) :
    List String → List (String × ℚ) → Option ℚ → Nat → List (String × ℚ)
  | [], ps, _, _ => ps
  | vid :: rest, ps, leaderPos, k =>
    let np3 := fluidNewPos distance current_speed speed_factor variance ps
      leaderPos vid k
    fluidUpdateGo distance current_speed speed_factor variance rest
      (setPos ps vid np3) (some np3) (k + 1)

/-- `FluidEdge.update`: no-op when empty; otherwise the common
density-dependent speed `vmax * max(0, 1 - (density/density_max)^2)` is
computed once and the vehicles are processed most-advanced first. -/
def FluidEdge.update (e : FluidEdge) (variance : Nat → ℚ) : FluidEdge :=
  if e.vehicles.length = 0 then e
  else
    let density : ℚ := (e.vehicles.length : ℚ) / (e.distance : ℚ)
    let ratio := density / e.density_max
    let speed_factor := max 0 (1 - ratio ^ 2)
    let current_speed := e.vmax * speed_factor
    let sorted_vehicles :=
      fluidSortDesc (fun vid => (e.positions.lookup vid).getD 0) e.vehicles
    let new_positions :=
      fluidUpdateGo e.distance current_speed speed_factor variance
        sorted_vehicles e.positions none 0
    { e with positions := new_positions }

/-- `FluidEdge.peek_last_vehicle`: the first vehicle of maximal position
(Python `max` keeps the earliest on ties), provided it is within half a
meter of the edge end; `None` otherwise. -/
def FluidEdge.peek_last_vehicle (e : FluidEdge) : Option String :=
  match e.vehicles with
  | [] => none
  | v0 :: rest =>
    let pos := fun vid => (e.positions.lookup vid).getD 0
    let leader := (v0 :: rest).foldl
      (fun best v => if pos v > pos best then v else best) v0
    if pos leader ≥ (e.distance : ℚ) - 1/2 then some leader else none

/-- `FluidEdge.pop_last_vehicle`: remove and return the exit vehicle found
by `peek_last_vehicle`, if any. -/
def FluidEdge.pop_last_vehicle (e : FluidEdge) : Option String × FluidEdge :=
  match e.peek_last_vehicle with
  | some l =>
    (some l, { e with vehicles := e.vehicles.erase l
                      positions := delPos e.positions l })
  | none => (none, e)

/-- `FluidEdge.get_occupation_ratio`: `len(vehicles) / max(max_vehicles, 1)`. -/
def FluidEdge.get_occupation_ratio (e : FluidEdge) : ℚ :=
  (e.vehicles.length : ℚ) / ((max e.max_vehicles 1 : Int) : ℚ)

/-- A Python float that may be `float('inf')`, for `FluidEdge.evaluate_weight`. -/
inductive PyFloat where
  | fin (q : ℚ) : PyFloat
  | inf : PyFloat
deriving DecidableEq, Repr

/-- `FluidEdge.evaluate_weight`: free-flow travel time `distance / vmax`
(infinite when vmax is not positive); with vehicles present, the time
`distance / (vmax * max(0.01, 1 - (density/density_max)^2))`, or -1 if the
congested speed is not positive. -/
def FluidEdge.evaluate_weight (e : FluidEdge) : PyFloat :=
  let base_time : PyFloat :=
    if 0 < e.vmax then PyFloat.fin ((e.distance : ℚ) / e.vmax) else PyFloat.inf
  if e.vehicles.length = 0 then base_time
  else
    let density : ℚ := (e.vehicles.length : ℚ) / (e.distance : ℚ)
    let speed_factor := max (1/100) (1 - (density / e.density_max) ^ 2)
    let current_speed := e.vmax * speed_factor
    if current_speed ≤ 0 then PyFloat.fin (-1)
    else PyFloat.fin ((e.distance : ℚ) / current_speed)

/-- One public operation on a fluid edge, for stating invariants over
arbitrary call sequences. -/
inductive FluidOp where
  | insert (vid : String) : FluidOp
  | update (variance : Nat → ℚ) : FluidOp
  | pop : FluidOp

/-- Apply one operation to a fluid edge (discarding the returned values). -/
def FluidEdge.apply (e : FluidEdge) : FluidOp → FluidEdge
  | FluidOp.insert vid => (e.insert_vehicle vid).1
  | FluidOp.update variance => e.update variance
  | FluidOp.pop => (e.pop_last_vehicle).2

/-- Apply a sequence of operations left to right. -/
def FluidEdge.applyOps (e : FluidEdge) (ops : List FluidOp) : FluidEdge :=
  ops.foldl FluidEdge.apply e

/-! ## Vehicle and the transfer phase

Embedding of `src/entities/vehicle.py` and of the per-edge transfer block
of `Simulation.internal_step` (simulation.py lines 114 to 143), specialised
to fluid edges (the only edge model implementing `peek_last_vehicle`). -/

/-- The projection of a Python `Vehicle` used by the transfer phase: its id,
remaining path (front = next target) and speed. -/
structure Vehicle where
  id : String
  path : List String
  speed : ℚ
deriving DecidableEq, Repr

/-- `Vehicle.next_target`: the front of the path without consuming it. -/
def Vehicle.next_target (v : Vehicle) : Option String := v.path.head?

/-- `Vehicle.pop_next_target`: drop the front of the path (the popped value
is discarded by the method). -/
def Vehicle.pop_next_target (v : Vehicle) : Vehicle := { v with path := v.path.tail }

/-- Result of one transfer attempt for the vehicle at an edge's exit. -/
inductive TransferOutcome where
  /-- Path exhausted: vehicle popped from the edge and removed from the
  simulation (destination reached). -/
  | arrived : TransferOutcome
  /-- Inserted into the next edge; popped from the old edge. -/
  | moved : TransferOutcome
  /-- Next edge full: vehicle left on the current edge, path re-extended. -/
  | blocked : TransferOutcome
  /-- `get_edge` raised: vehicle popped and removed from the simulation. -/
  | invalidRoute : TransferOutcome
deriving DecidableEq, Repr

/-- Result state of a transfer attempt: the two edges, the (possibly
path-mutated) vehicle record, and what happened. -/
structure TransferResult where
  up : FluidEdge
  down : FluidEdge
  veh : Vehicle
  outcome : TransferOutcome
deriving Repr

/-- The transfer block of `Simulation.internal_step` (lines 114 to 143) for
the vehicle `veh` at the exit of the edge into node `dst`, after
`can_pass` allowed it: `pop_next_target()` consumes the path front, the new
front is the next node; `graph.get_edge(dst, next_node)` resolves to `down`
exactly when the next node is `down_dst` (and raises otherwise); a failed
insertion re-extends the path with `vehicle.path.insert(0, next_node)`. -/
def Simulation.transfer_fluid (up down : FluidEdge) (down_dst : String)
    (veh : Vehicle) : TransferResult :=
  let v1 := veh.pop_next_target
  match v1.next_target with
  | none =>
    { up := (up.pop_last_vehicle).2, down := down, veh := v1
      outcome := TransferOutcome.arrived }
  | some next_node =>
    if next_node = down_dst then
      match down.insert_vehicle v1.id with
      | (down', true) =>
        { up := (up.pop_last_vehicle).2, down := down'
          veh := { v1 with speed := 0 }, outcome := TransferOutcome.moved }
      | (_, false) =>
        { up := up, down := down
          veh := { v1 with path := next_node :: v1.path }
          outcome := TransferOutcome.blocked }
    else
      { up := (up.pop_last_vehicle).2, down := down, veh := v1
        outcome := TransferOutcome.invalidRoute }

/-! ## Road graph

Embedding of `src/core/graph.py` (class `RoadGraph`), whose `add_node` and
`add_edge` delegate to a NetworkX DiGraph: adding an edge silently creates
missing endpoint nodes (with no coordinate attributes) and silently
replaces the data of an existing (src, dst) edge; a DiGraph holds at most
one edge per ordered pair. -/

/-- NetworkX node table: node id with optional coordinate attributes
(`add_edge` creates attribute-less nodes). -/
def ensureNode (nodes : List (String × Option (ℚ × ℚ))) (node_id : String) :
    List (String × Option (ℚ × ℚ)) :=
  if (nodes.lookup node_id).isSome then nodes else nodes ++ [(node_id, none)]

/-- Upsert a node with coordinates (NetworkX `add_node` updates attributes
of an existing node). -/
def upsertNode (nodes : List (String × Option (ℚ × ℚ))) (node_id : String)
    (xy : ℚ × ℚ) : List (String × Option (ℚ × ℚ)) :=
  match nodes with
  | [] => [(node_id, some xy)]
  | (k, v) :: rest =>
    if k = node_id then (node_id, some xy) :: rest
    else (k, v) :: upsertNode rest node_id xy

/-- Set the object of the directed edge (s, d), replacing an existing entry
in place or appending (NetworkX `add_edge` on a DiGraph). -/
def setEdge {α : Type} : List (String × String × α) → String → String → α →
    List (String × String × α)
  | [], s, d, o => [(s, d, o)]
  | (s', d', o') :: rest, s, d, o =>
    if s' = s ∧ d' = d then (s, d, o) :: rest
    else (s', d', o') :: setEdge rest s d o

/-- Find the object of the directed edge (a, b), if present. -/
def lookupEdge {α : Type} (edges : List (String × String × α)) (a b : String) :
    Option α :=
  (edges.find? (fun t => t.1 = a ∧ t.2.1 = b)).map (fun t => t.2.2)

/-- Number of entries for the ordered pair (a, b). -/
def countEdge {α : Type} (edges : List (String × String × α)) (a b : String) :
    Nat :=
  edges.countP (fun t => t.1 = a ∧ t.2.1 = b)

/-- State of `RoadGraph`: the wrapped DiGraph's node and edge tables,
polymorphic in the stored edge objects. -/
structure RoadGraph (α : Type) where
  nodes : List (String × Option (ℚ × ℚ))
  edges : List (String × String × α)

/-- The empty road graph. -/
def RoadGraph.empty {α : Type} : RoadGraph α := { nodes := [], edges := [] }

/-- `RoadGraph.add_node`: `self.graph.add_node(node_id, x=x, y=y)`. -/
def RoadGraph.add_node {α : Type} (g : RoadGraph α) (node_id : String)
    (x y : ℚ) : RoadGraph α :=
  { g with nodes := upsertNode g.nodes node_id (x, y) }

/-- `RoadGraph.add_edge`: `self.graph.add_edge(src, dst, object=edge_obj)` —
total, never raises: missing endpoints are created and an existing (src,
dst) entry is replaced. -/
def RoadGraph.add_edge {α : Type} (g : RoadGraph α) (src dst : String)
    (edge_obj : α) : RoadGraph α :=
  { nodes := ensureNode (ensureNode g.nodes src) dst
    edges := setEdge g.edges src dst edge_obj }

/-- `RoadGraph.get_edge`: the stored object, or `RuntimeError` if the edge
is absent. -/
def RoadGraph.get_edge {α : Type} (g : RoadGraph α) (a b : String) :
    Except PyErr α :=
  match lookupEdge g.edges a b with
  | some o => Except.ok o
  | none =>
    Except.error (PyErr.runtimeError ("No edge found from " ++ a ++ " to " ++ b))

/-- Invariant of the fluid edge maintained by its public operations: the
vehicle count never exceeds the (nonnegative part of the) capacity, and no
stored position exceeds the edge length. -/
def FluidInv (e : FluidEdge) : Prop :=
  ((e.vehicles.length : Int) ≤ max e.max_vehicles 0)
  ∧ ∀ q ∈ e.positions, q.2 ≤ (e.distance : ℚ)

/-- Closed form for the round-robin light: with a nonempty incoming list and
positive duration `d`, after `n` calls to `update` the timer is `n % d` and
the green index is `(n / d) % length`. -/
theorem TrafficLightIntersection.iterate_update_closed_form
    (node : String) (inc : List String) (d : Nat) (hd : 0 < d) (hinc : inc ≠ [])
    (n : Nat) :
    (TrafficLightIntersection.update)^[n]
        (TrafficLightIntersection.init node inc (d : Int)) =
      { node_id := node
        incoming_nodes := inc
        duration := (d : Int)
        current_green_idx := (n / d) % inc.length
        timer := ((n % d : Nat) : Int) } := by
  induction n with
  | zero =>
    simp [TrafficLightIntersection.init]
  | succ n ih =>
    rw [Function.iterate_succ_apply', ih]
    have hmod : n % d < d := Nat.mod_lt _ hd
    have hsplit : n + 1 = d * (n / d) + (n % d + 1) := by
      have := Nat.div_add_mod n d
      omega
    unfold TrafficLightIntersection.update
    rw [if_neg hinc]
    by_cases hreach : n % d + 1 = d
    · have hge : ((n % d : Nat) : Int) + 1 ≥ (d : Int) := by omega
      rw [if_pos hge]
      have hmul : d * (n / d + 1) = d * (n / d) + d := Nat.mul_succ d (n / d)
      have hne : n + 1 = d * (n / d + 1) := by omega
      have h0 : (n + 1) % d = 0 := by rw [hne]; exact Nat.mul_mod_right d _
      have hdiv : (n + 1) / d = n / d + 1 := by
        rw [hne]; exact Nat.mul_div_cancel_left _ hd
      simp only [TrafficLightIntersection.mk.injEq]
      refine ⟨trivial, trivial, trivial, ?_, ?_⟩
      · rw [hdiv, Nat.mod_add_mod]
      · rw [h0]; rfl
    · have hlt2 : n % d + 1 < d := by omega
      have hge' : ¬ (((n % d : Nat) : Int) + 1 ≥ (d : Int)) := by omega
      rw [if_neg hge']
      have h1 : (n + 1) % d = n % d + 1 := by
        rw [hsplit, Nat.add_comm, Nat.add_mul_mod_self_left]
        exact Nat.mod_eq_of_lt hlt2
      have h2 : (n + 1) / d = n / d := by
        rw [hsplit, Nat.add_comm, Nat.add_mul_div_left _ _ hd,
            Nat.div_eq_of_lt hlt2, Nat.zero_add]
      simp only [TrafficLightIntersection.mk.injEq]
      refine ⟨trivial, trivial, trivial, ?_, ?_⟩
      · rw [h2]
      · rw [h1]; push_cast; ring

/-- C6 counterexample: the claim says every `update()` call increments the
elapsed-tick timer, but on a controller whose incoming list is empty the
method returns immediately, so the timer stays 0 instead of becoming 1. -/
theorem claim_C6_counterexample :
    (TrafficLightIntersection.update
        (TrafficLightIntersection.init "X" [] 5)).timer =
      (TrafficLightIntersection.init "X" [] 5).timer
    ∧ (TrafficLightIntersection.init "X" [] 5).timer + 1 ≠
        (TrafficLightIntersection.init "X" [] 5).timer := by
  constructor
  · rfl
  · decide

/-- C6 (amended): `can_pass(src)` is true iff `src` is the incoming node at
the current green index (unconditionally true when the incoming list is
empty), so at most one incoming direction is permitted at a time; when the
incoming list is nonempty, each `update()` increments the timer and, when it
reaches `duration`, resets it to 0 and advances the green index cyclically
(when the incoming list is empty, `update()` is a no-op): after `n` updates
the timer is `n % duration` and the green index is
`(n / duration) % length`, giving the claimed A, B, C rotation every
`duration` ticks. -/
theorem claim_C6_round_robin (node : String) (inc : List String) (d n : Nat)
    (src : String) (hd : 0 < d) :
    (inc = [] →
      ((TrafficLightIntersection.update)^[n]
          (TrafficLightIntersection.init node inc (d : Int))).can_pass src
        = true)
    ∧ (inc ≠ [] →
      ((TrafficLightIntersection.update)^[n]
          (TrafficLightIntersection.init node inc (d : Int))).timer
          = ((n % d : Nat) : Int)
      ∧ ((TrafficLightIntersection.update)^[n]
          (TrafficLightIntersection.init node inc (d : Int))).current_green_idx
          = (n / d) % inc.length
      ∧ (((TrafficLightIntersection.update)^[n]
          (TrafficLightIntersection.init node inc (d : Int))).can_pass src
            = true ↔ inc.get? ((n / d) % inc.length) = some src)
      ∧ ∀ s1 s2 : String,
          ((TrafficLightIntersection.update)^[n]
            (TrafficLightIntersection.init node inc (d : Int))).can_pass s1
              = true →
          ((TrafficLightIntersection.update)^[n]
            (TrafficLightIntersection.init node inc (d : Int))).can_pass s2
              = true →
          s1 = s2) := by
  constructor
  · intro he
    have hfix : (TrafficLightIntersection.update)^[n]
        (TrafficLightIntersection.init node inc (d : Int)) =
          TrafficLightIntersection.init node inc (d : Int) := by
      apply Function.iterate_fixed
      unfold TrafficLightIntersection.update
      rw [if_pos]
      exact he
    rw [hfix]
    unfold TrafficLightIntersection.can_pass
    rw [if_pos]
    exact he
  · intro hinc
    rw [TrafficLightIntersection.iterate_update_closed_form node inc d hd hinc n]
    refine ⟨rfl, rfl, ?_, ?_⟩
    · unfold TrafficLightIntersection.can_pass
      rw [if_neg hinc]
      simp [beq_iff_eq]
    · intro s1 s2 h1 h2
      unfold TrafficLightIntersection.can_pass at h1 h2
      rw [if_neg hinc] at h1 h2
      simp only [beq_iff_eq] at h1 h2
      rw [h1] at h2
      exact Option.some.inj h2

/-- C6 witness: with incoming nodes A, B, C and duration 5, after 7 updates
the permitted direction is B (index `(7 / 5) % 3 = 1`). -/
theorem claim_C6_round_robin_witness :
    ((TrafficLightIntersection.update)^[7]
        (TrafficLightIntersection.init "N" ["A", "B", "C"] 5)).can_pass "B"
      = true := by
  have h := claim_C6_round_robin "N" ["A", "B", "C"] 5 7 "B" (by decide)
  exact (h.2 (by decide)).2.2.1.mpr (by decide)

/-- C10: for both controller variants, `get_state(src)` returns `"GREEN"`
exactly when `can_pass(src)` is true and `"RED"` otherwise (for the traffic
light, on every state where the green index is meaningful, as in every
reachable state). -/
theorem claim_C10_get_state_agrees (tl : TrafficLightIntersection)
    (b : BaseIntersection) (src : String)
    (h : tl.incoming_nodes = [] ∨
      tl.current_green_idx < tl.incoming_nodes.length) :
    ((tl.get_state src = "GREEN") ↔ tl.can_pass src = true)
    ∧ ((tl.get_state src = "RED") ↔ tl.can_pass src = false)
    ∧ b.get_state src = "GREEN" ∧ b.can_pass src = true := by
  refine ⟨?_, ?_, rfl, rfl⟩ <;>
  · unfold TrafficLightIntersection.get_state TrafficLightIntersection.can_pass
    by_cases he : tl.incoming_nodes = []
    · simp [he]
    · by_cases hg : tl.incoming_nodes.get? tl.current_green_idx = some src
      · simp [he, hg]
      · simp [he, hg]

/-- C10 witness: a one-road traffic light shows GREEN to that road, and the
uncontrolled intersection shows GREEN to everyone. -/
theorem claim_C10_get_state_agrees_witness :
    (TrafficLightIntersection.init "N" ["A"] 5).get_state "A" = "GREEN"
    ∧ (BaseIntersection.mk "M").get_state "A" = "GREEN" := by
  have h := claim_C10_get_state_agrees (TrafficLightIntersection.init "N" ["A"] 5)
    (BaseIntersection.mk "M") "A" (Or.inr (by decide))
  exact ⟨h.1.mpr (by decide), h.2.2.1⟩

/-- C1: the canonical `CellularEdge` never returns from `peek_last_vehicle`
or `pop_last_vehicle`: it defines neither method, so both resolve to the
`BaseEdge` stubs and raise `NotImplementedError` on every edge state,
instead of reading or removing the final-cell vehicle.  Consequently the
Simulation's transfer phase (simulation.py line 100) raises on every
cellular edge. -/
theorem claim_C1_peek_pop_not_implemented (e : CellularEdge) :
    e.peek_last_vehicle = Except.error PyErr.notImplementedError
    ∧ e.pop_last_vehicle = Except.error PyErr.notImplementedError :=
  ⟨rfl, rfl⟩

/-- C2: a red light does not keep the exit-cell vehicle on a cellular edge
during a simulation step.  The destination's controller forbids passage
from "A" (`can_pass("A")` is false), yet the simulation advances the edge
with `edge.update()` — `allow_exit` defaulting to True (simulation.py line
97) — so the vehicle in the last cell is removed from the cells into the
discarded exiting list, for every possible sequence of `random.random()`
draws. -/
theorem claim_C2_red_light_not_enforced (rand : Nat → ℚ)
    (hr : ∀ k, 0 ≤ rand k) :
    (TrafficLightIntersection.init "B" ["C"] 5).can_pass "A" = false
    ∧ (Simulation.update_cellular_edge
        { distance := 2, vmax := 2, prob_slow := 0,
          cells := [none, some ⟨"v", 0⟩], entry_queue := [] } rand).1.cells
        = [none, none]
    ∧ (Simulation.update_cellular_edge
        { distance := 2, vmax := 2, prob_slow := 0,
          cells := [none, some ⟨"v", 0⟩], entry_queue := [] } rand).2
        = [⟨"v", 1⟩] := by
  have h0 : ¬ (rand 0 < (0 : ℚ)) := not_lt.mpr (hr 0)
  refine ⟨rfl, ?_, ?_⟩ <;>
    simp [Simulation.update_cellular_edge, CellularEdge.update,
      CellularEdge.update_cell, List.range_succ, h0]

/-- C2 witness: the concrete draw sequence that always returns 0. -/
theorem claim_C2_red_light_not_enforced_witness :
    (TrafficLightIntersection.init "B" ["C"] 5).can_pass "A" = false
    ∧ (Simulation.update_cellular_edge
        { distance := 2, vmax := 2, prob_slow := 0,
          cells := [none, some ⟨"v", 0⟩], entry_queue := [] } (fun _ => 0)).1.cells
        = [none, none] := by
  have h := claim_C2_red_light_not_enforced (fun _ => 0) (fun _ => le_rfl)
  exact ⟨h.1, h.2.1⟩

/-- C3 counterexample: inserting into an edge whose cell 0 is occupied does
return False, but it does not leave the edge unchanged: the rejected
vehicle is stored in the internal `entry_queue`. -/
theorem claim_C3_counterexample :
    (({ distance := 2, vmax := 2, prob_slow := 0,
        cells := [some ⟨"u", 0⟩, none],
        entry_queue := [] } : CellularEdge).insert_vehicle ⟨"w", 1⟩).2 = false
    ∧ (({ distance := 2, vmax := 2, prob_slow := 0,
          cells := [some ⟨"u", 0⟩, none],
          entry_queue := [] } : CellularEdge).insert_vehicle ⟨"w", 1⟩).1
        ≠ { distance := 2, vmax := 2, prob_slow := 0,
            cells := [some ⟨"u", 0⟩, none], entry_queue := [] }
    ∧ (({ distance := 2, vmax := 2, prob_slow := 0,
          cells := [some ⟨"u", 0⟩, none],
          entry_queue := [] } : CellularEdge).insert_vehicle ⟨"w", 1⟩).1.entry_queue
        = [⟨"w", 1⟩] := by
  decide

/-- C3 (amended): `insert_vehicle(vehicle)` succeeds iff cell 0 is empty; on
success the vehicle is placed in cell 0 with speed `min(vehicle.speed,
vmax)` and the entry queue is untouched; on failure the cells are unchanged
but the rejected vehicle is appended to the edge's internal entry queue
rather than being left with the caller. -/
theorem claim_C3_insert_queues (e : CellularEdge) (v : CellVehicle)
    (hne : e.cells ≠ []) :
    ((e.insert_vehicle v).2 = true ↔ e.cells.getD 0 none = none)
    ∧ ((e.insert_vehicle v).2 = true →
        (e.insert_vehicle v).1.cells.getD 0 none
            = some { v with speed := min v.speed e.vmax }
        ∧ (e.insert_vehicle v).1.entry_queue = e.entry_queue)
    ∧ ((e.insert_vehicle v).2 = false →
        (e.insert_vehicle v).1.cells = e.cells
        ∧ (e.insert_vehicle v).1.entry_queue = e.entry_queue ++ [v]) := by
  unfold CellularEdge.insert_vehicle
  by_cases h : e.cells.getD 0 none = none
  · rw [if_pos h]
    refine ⟨⟨fun _ => h, fun _ => rfl⟩, fun _ => ⟨?_, rfl⟩, by simp⟩
    cases hc : e.cells with
    | nil => exact absurd hc hne
    | cons c cs => simp [hc]
  · rw [if_neg h]
    exact ⟨⟨fun hh => absurd hh (by simp), fun hh => absurd hh h⟩, by simp,
      fun _ => ⟨rfl, rfl⟩⟩

/-- C3 witness: inserting a speed-9 vehicle into a fresh 3-cell edge with
vmax 2 succeeds and clamps the speed to 2. -/
theorem claim_C3_insert_queues_witness :
    ((CellularEdge.init 3 2 0).insert_vehicle ⟨"w", 9⟩).2 = true
    ∧ ((CellularEdge.init 3 2 0).insert_vehicle ⟨"w", 9⟩).1.cells.getD 0 none
        = some ⟨"w", 2⟩ := by
  have h := claim_C3_insert_queues (CellularEdge.init 3 2 0) ⟨"w", 9⟩ (by decide)
  refine ⟨h.1.mpr (by decide), ?_⟩
  have h2 := (h.2.1 (h.1.mpr (by decide))).1
  simpa using h2

/-- C8: the cellular default cost is exactly `distance` at fill ratio at
most one half, `distance * 1.5` above one half and at most four fifths, and
`distance * 3` above four fifths. -/
theorem claim_C8_cost_bands (e : CellularEdge) (hd : 0 < e.distance) :
    ((e.num_vehicles : ℚ) / (e.distance : ℚ) ≤ 1/2 →
      e.evaluate_weight = (e.distance : ℚ))
    ∧ (1/2 < (e.num_vehicles : ℚ) / (e.distance : ℚ) →
        (e.num_vehicles : ℚ) / (e.distance : ℚ) ≤ 4/5 →
        e.evaluate_weight = (e.distance : ℚ) * (3/2))
    ∧ (4/5 < (e.num_vehicles : ℚ) / (e.distance : ℚ) →
        e.evaluate_weight = (e.distance : ℚ) * 3) := by
  unfold CellularEdge.evaluate_weight
  refine ⟨fun h1 => ?_, fun h1 h2 => ?_, fun h1 => ?_⟩
  · rw [if_neg (by simp only [gt_iff_lt, not_lt]; linarith),
      if_neg (by simp only [gt_iff_lt, not_lt]; linarith)]
  · rw [if_neg (by simp only [gt_iff_lt, not_lt]; linarith), if_pos h1]
  · rw [if_pos h1]

/-- C8 witness: a 2-cell edge with one vehicle (fill ratio exactly one
half) is charged its base cost 2. -/
theorem claim_C8_cost_bands_witness :
    ({ distance := 2, vmax := 2, prob_slow := 0,
       cells := [some ⟨"v", 0⟩, none],
       entry_queue := [] } : CellularEdge).evaluate_weight = 2 := by
  have h := claim_C8_cost_bands
    { distance := 2, vmax := 2, prob_slow := 0,
      cells := [some ⟨"v", 0⟩, none], entry_queue := [] } (by decide)
  rw [h.1 (by norm_num [CellularEdge.num_vehicles])]
  norm_num

/-- Structure of a failed transfer: with the vehicle's path
`p1 :: down_dst :: rest` and the downstream edge at capacity, the attempt is
blocked, both edges are unchanged, and the path front is refilled with the
next-hop node. -/
theorem transfer_fluid_blocked (up down : FluidEdge) (down_dst : String)
    (veh : Vehicle) (p1 : String) (rest : List String)
    (hpath : veh.path = p1 :: down_dst :: rest)
    (hfull : (down.vehicles.length : Int) ≥ down.max_vehicles) :
    Simulation.transfer_fluid up down down_dst veh =
      { up := up, down := down
        veh := { veh with path := down_dst :: down_dst :: rest }
        outcome := TransferOutcome.blocked } := by
  have hins : down.insert_vehicle veh.id = (down, false) := by
    unfold FluidEdge.insert_vehicle
    rw [if_pos hfull]
  simp only [Simulation.transfer_fluid, Vehicle.pop_next_target,
    Vehicle.next_target, hpath, List.tail_cons, List.head?_cons,
    eq_self_iff_true, if_true, hins]

/-- Structure of a successful transfer: with the path front at the
downstream edge's destination and free capacity, the vehicle is popped from
the upstream edge and appended to the downstream one. -/
theorem transfer_fluid_moved (up down : FluidEdge) (down_dst : String)
    (veh : Vehicle) (p1 : String) (rest : List String)
    (hpath : veh.path = p1 :: down_dst :: rest)
    (hfree : ¬ ((down.vehicles.length : Int) ≥ down.max_vehicles)) :
    Simulation.transfer_fluid up down down_dst veh =
      { up := (up.pop_last_vehicle).2
        down := { down with vehicles := down.vehicles ++ [veh.id]
                            positions := setPos down.positions veh.id 0 }
        veh := { veh with path := down_dst :: rest, speed := 0 }
        outcome := TransferOutcome.moved } := by
  have hins : down.insert_vehicle veh.id =
      ({ down with vehicles := down.vehicles ++ [veh.id]
                   positions := setPos down.positions veh.id 0 }, true) := by
    unfold FluidEdge.insert_vehicle
    rw [if_neg hfree]
  simp only [Simulation.transfer_fluid, Vehicle.pop_next_target,
    Vehicle.next_target, hpath, List.tail_cons, List.head?_cons,
    eq_self_iff_true, if_true, hins]

/-- C4 counterexample: with the vehicle's path [B, C, D] (front = the node
the edge reaches) and a full downstream edge, the failed transfer leaves
the path as [C, C, D] — the consumed element B is not restored; the front
is instead refilled with a copy of the next-hop node C. -/
theorem claim_C4_counterexample :
    (Simulation.transfer_fluid
      { distance := 10, vmax := 5, density_max := 1/5,
        vehicles := ["v"], positions := [("v", 10)] }
      { distance := 10, vmax := 5, density_max := 1/5,
        vehicles := ["w1", "w2"], positions := [("w1", 3), ("w2", 7)] }
      "C" { id := "v", path := ["B", "C", "D"], speed := 0 }).outcome
      = TransferOutcome.blocked
    ∧ (Simulation.transfer_fluid
      { distance := 10, vmax := 5, density_max := 1/5,
        vehicles := ["v"], positions := [("v", 10)] }
      { distance := 10, vmax := 5, density_max := 1/5,
        vehicles := ["w1", "w2"], positions := [("w1", 3), ("w2", 7)] }
      "C" { id := "v", path := ["B", "C", "D"], speed := 0 }).veh.path
      = ["C", "C", "D"]
    ∧ (Simulation.transfer_fluid
      { distance := 10, vmax := 5, density_max := 1/5,
        vehicles := ["v"], positions := [("v", 10)] }
      { distance := 10, vmax := 5, density_max := 1/5,
        vehicles := ["w1", "w2"], positions := [("w1", 3), ("w2", 7)] }
      "C" { id := "v", path := ["B", "C", "D"], speed := 0 }).veh.path
      ≠ ["B", "C", "D"] := by
  have hfull : ((["w1", "w2"] : List String).length : Int) ≥
      FluidEdge.max_vehicles
        { distance := 10, vmax := 5, density_max := 1/5,
          vehicles := ["w1", "w2"], positions := [("w1", 3), ("w2", 7)] } := by
    norm_num [FluidEdge.max_vehicles, pyInt]
  rw [transfer_fluid_blocked _ _ "C" _ "B" ["D"] rfl hfull]
  refine ⟨by trivial, by trivial, by decide⟩

/-- C4 (amended): when the downstream edge is full, the transfer leaves
both edges unchanged and the vehicle alive with its path re-extended at
the front by a copy of the next-hop node (not the consumed element; the
front is only ever popped, never read, so the retry behaves the same); a
later attempt against a downstream edge with free capacity succeeds,
popping the vehicle from the upstream edge and appending it to the
downstream one with the next-hop consumed. -/
theorem claim_C4_spillback (up down : FluidEdge) (down_dst : String)
    (veh : Vehicle) (p1 : String) (rest : List String)
    (hpath : veh.path = p1 :: down_dst :: rest)
    (hfull : (down.vehicles.length : Int) ≥ down.max_vehicles) :
    (Simulation.transfer_fluid up down down_dst veh).outcome
      = TransferOutcome.blocked
    ∧ (Simulation.transfer_fluid up down down_dst veh).up = up
    ∧ (Simulation.transfer_fluid up down down_dst veh).down = down
    ∧ (Simulation.transfer_fluid up down down_dst veh).veh.path
      = down_dst :: down_dst :: rest
    ∧ ∀ down2 : FluidEdge,
        ¬ ((down2.vehicles.length : Int) ≥ down2.max_vehicles) →
        (Simulation.transfer_fluid up down2 down_dst
          (Simulation.transfer_fluid up down down_dst veh).veh).outcome
          = TransferOutcome.moved
        ∧ (Simulation.transfer_fluid up down2 down_dst
            (Simulation.transfer_fluid up down down_dst veh).veh).up
          = (up.pop_last_vehicle).2
        ∧ (Simulation.transfer_fluid up down2 down_dst
            (Simulation.transfer_fluid up down down_dst veh).veh).down.vehicles
          = down2.vehicles ++ [veh.id]
        ∧ (Simulation.transfer_fluid up down2 down_dst
            (Simulation.transfer_fluid up down down_dst veh).veh).veh.path
          = down_dst :: rest := by
  have hstep := transfer_fluid_blocked up down down_dst veh p1 rest hpath hfull
  refine ⟨by rw [hstep], by rw [hstep], by rw [hstep], by rw [hstep], ?_⟩
  intro down2 h2
  rw [hstep]
  have hstep2 := transfer_fluid_moved up down2 down_dst
    { veh with path := down_dst :: down_dst :: rest } down_dst rest rfl h2
  rw [hstep2]
  exact ⟨rfl, rfl, rfl, rfl⟩

/-- C4 witness: the concrete spillback scenario — blocked against a full
downstream edge, then moved once a cell of capacity is free. -/
theorem claim_C4_spillback_witness :
    (Simulation.transfer_fluid
      { distance := 10, vmax := 5, density_max := 1/5,
        vehicles := ["v"], positions := [("v", 10)] }
      { distance := 10, vmax := 5, density_max := 1/5,
        vehicles := ["w1", "w2"], positions := [("w1", 3), ("w2", 7)] }
      "C" { id := "v", path := ["B", "C", "D"], speed := 0 }).outcome
      = TransferOutcome.blocked
    ∧ (Simulation.transfer_fluid
        { distance := 10, vmax := 5, density_max := 1/5,
          vehicles := ["v"], positions := [("v", 10)] }
        { distance := 10, vmax := 5, density_max := 1/5,
          vehicles := ["w2"], positions := [("w2", 7)] }
        "C"
        (Simulation.transfer_fluid
          { distance := 10, vmax := 5, density_max := 1/5,
            vehicles := ["v"], positions := [("v", 10)] }
          { distance := 10, vmax := 5, density_max := 1/5,
            vehicles := ["w1", "w2"], positions := [("w1", 3), ("w2", 7)] }
          "C" { id := "v", path := ["B", "C", "D"], speed := 0 }).veh).outcome
      = TransferOutcome.moved := by
  have h := claim_C4_spillback
    { distance := 10, vmax := 5, density_max := 1/5,
      vehicles := ["v"], positions := [("v", 10)] }
    { distance := 10, vmax := 5, density_max := 1/5,
      vehicles := ["w1", "w2"], positions := [("w1", 3), ("w2", 7)] }
    "C" { id := "v", path := ["B", "C", "D"], speed := 0 }
    "B" ["D"] rfl (by norm_num [FluidEdge.max_vehicles, pyInt])
  exact ⟨h.1,
    (h.2.2.2.2
      { distance := 10, vmax := 5, density_max := 1/5,
        vehicles := ["w2"], positions := [("w2", 7)] }
      (by norm_num [FluidEdge.max_vehicles, pyInt])).1⟩

/-- Setting an edge makes it the one found for its ordered pair. -/
theorem lookupEdge_setEdge {α : Type} (l : List (String × String × α))
    (s d : String) (o : α) : lookupEdge (setEdge l s d o) s d = some o := by
  induction l with
  | nil => simp [setEdge, lookupEdge, List.find?]
  | cons hd tl ih =>
    obtain ⟨s', d', o'⟩ := hd
    by_cases h : s' = s ∧ d' = d
    · simp [setEdge, h, lookupEdge, List.find?]
    · unfold setEdge
      rw [if_neg h]
      unfold lookupEdge List.find?
      rw [decide_eq_false h]
      exact ih

/-- Setting an edge on a simple-digraph edge table (at most one entry per
ordered pair) leaves exactly one entry for that pair. -/
theorem countEdge_setEdge {α : Type} (l : List (String × String × α))
    (s d : String) (o : α) (h : countEdge l s d ≤ 1) :
    countEdge (setEdge l s d o) s d = 1 := by
  induction l with
  | nil => simp [setEdge, countEdge]
  | cons hd tl ih =>
    obtain ⟨s', d', o'⟩ := hd
    by_cases hc : s' = s ∧ d' = d
    · unfold setEdge
      rw [if_pos hc]
      unfold countEdge at h ⊢
      rw [List.countP_cons] at h ⊢
      simp only [decide_eq_true_eq] at h ⊢
      rw [if_pos (by simp)]
      rw [if_pos hc] at h
      have h0 : List.countP (fun t => decide (t.1 = s ∧ t.2.1 = d)) tl = 0 := by
        omega
      rw [h0]
    · unfold setEdge
      rw [if_neg hc]
      unfold countEdge at h ⊢
      rw [List.countP_cons] at h ⊢
      simp only [decide_eq_true_eq] at h ⊢
      rw [if_neg hc] at h ⊢
      simp only [Nat.add_zero] at h ⊢
      exact ih h

/-- A key present in a list stays present after appending entries. -/
theorem lookup_isSome_append {β : Type} (l1 l2 : List (String × β))
    (j : String) (h : (l1.lookup j).isSome = true) :
    ((l1 ++ l2).lookup j).isSome = true := by
  induction l1 with
  | nil => simp [List.lookup] at h
  | cons hd tl ih =>
    obtain ⟨k, v⟩ := hd
    by_cases hk : (j == k) = true
    · simp [List.lookup, hk]
    · rw [Bool.not_eq_true] at hk
      simp only [List.cons_append, List.lookup, hk] at h ⊢
      exact ih h

/-- A key appended at the end of a list is found by lookup. -/
theorem lookup_isSome_last {β : Type} (l : List (String × β)) (j : String)
    (x : β) : ((l ++ [(j, x)]).lookup j).isSome = true := by
  induction l with
  | nil => simp [List.lookup]
  | cons hd tl ih =>
    obtain ⟨k, v⟩ := hd
    by_cases hk : (j == k) = true
    · simp [List.lookup, hk]
    · rw [Bool.not_eq_true] at hk
      simp only [List.cons_append, List.lookup, hk]
      exact ih

/-- After `ensureNode`, the ensured node is present. -/
theorem lookup_ensureNode_self (ns : List (String × Option (ℚ × ℚ)))
    (node_id : String) :
    ((ensureNode ns node_id).lookup node_id).isSome = true := by
  unfold ensureNode
  by_cases h : (ns.lookup node_id).isSome = true
  · rw [if_pos h]; exact h
  · rw [if_neg h]; exact lookup_isSome_last ns node_id none

/-- `ensureNode` never removes a node. -/
theorem lookup_ensureNode_mono (ns : List (String × Option (ℚ × ℚ)))
    (node_id j : String) (h : (ns.lookup j).isSome = true) :
    ((ensureNode ns node_id).lookup j).isSome = true := by
  unfold ensureNode
  by_cases hp : (ns.lookup node_id).isSome = true
  · rw [if_pos hp]; exact h
  · rw [if_neg hp]; exact lookup_isSome_append ns _ j h

/-- C9 counterexample: `add_edge` cannot fail.  On the empty graph — where
"A" and "B" are unknown nodes — `add_edge("A", "B", ...)` simply creates the
edge (no `UnknownNodeError`), and adding the same (src, dst) pair again
silently replaces the stored object (no `DuplicateEdgeError`). -/
theorem claim_C9_counterexample :
    ((RoadGraph.empty : RoadGraph Nat).nodes.lookup "A" = none)
    ∧ ((RoadGraph.empty : RoadGraph Nat).add_edge "A" "B" 7).edges
        = [("A", "B", 7)]
    ∧ (((RoadGraph.empty : RoadGraph Nat).add_edge "A" "B" 7).add_edge
        "A" "B" 8).edges = [("A", "B", 8)] := by
  decide

/-- C9 (amended): `add_edge(src, dst, edge_model)` never raises: missing
endpoints are implicitly created (as attribute-less nodes) and a duplicate
(src, dst) silently replaces the stored edge object; afterwards the graph
contains exactly one edge for the pair (src, dst) — given that, as in every
graph built through `add_edge`, the pair occurred at most once before — and
`get_edge(src, dst)` returns the new object. -/
theorem claim_C9_add_edge_total {α : Type} (g : RoadGraph α)
    (src dst : String) (obj : α) (hsimple : countEdge g.edges src dst ≤ 1) :
    (g.add_edge src dst obj).get_edge src dst = Except.ok obj
    ∧ countEdge (g.add_edge src dst obj).edges src dst = 1
    ∧ (((g.add_edge src dst obj).nodes.lookup src).isSome = true)
    ∧ (((g.add_edge src dst obj).nodes.lookup dst).isSome = true) := by
  refine ⟨?_, ?_, ?_, ?_⟩
  · unfold RoadGraph.get_edge RoadGraph.add_edge
    rw [lookupEdge_setEdge]
  · exact countEdge_setEdge g.edges src dst obj hsimple
  · exact lookup_ensureNode_mono _ dst src (lookup_ensureNode_self g.nodes src)
  · exact lookup_ensureNode_self _ dst

/-- C9 witness: adding the edge (A, B) to the empty graph yields a graph
with exactly that one edge and both endpoint nodes present. -/
theorem claim_C9_add_edge_total_witness :
    ((RoadGraph.empty : RoadGraph Nat).add_edge "A" "B" 7).get_edge "A" "B"
      = Except.ok 7
    ∧ countEdge ((RoadGraph.empty : RoadGraph Nat).add_edge "A" "B" 7).edges
        "A" "B" = 1 := by
  have h := claim_C9_add_edge_total (RoadGraph.empty : RoadGraph Nat)
    "A" "B" 7 (by decide)
  exact ⟨h.1, h.2.1⟩

/-- Every entry of `setPos ps k x` is either the new binding or an old one. -/
theorem setPos_mem (ps : List (String × ℚ)) (k : String) (x : ℚ) :
    ∀ q ∈ setPos ps k x, q = (k, x) ∨ q ∈ ps := by
  induction ps with
  | nil =>
    intro q hq
    simp only [setPos, List.mem_singleton] at hq
    exact Or.inl hq
  | cons hd tl ih =>
    obtain ⟨k', y⟩ := hd
    intro q hq
    by_cases h : k' = k
    · simp only [setPos, if_pos h] at hq
      rcases List.mem_cons.mp hq with h1 | h2
      · exact Or.inl h1
      · exact Or.inr (List.mem_cons_of_mem _ h2)
    · simp only [setPos, if_neg h] at hq
      rcases List.mem_cons.mp hq with h1 | h2
      · exact Or.inr (h1 ▸ List.mem_cons_self _ _)
      · rcases ih q h2 with h3 | h4
        · exact Or.inl h3
        · exact Or.inr (List.mem_cons_of_mem _ h4)

/-- `delPos` only removes entries. -/
theorem delPos_subset (ps : List (String × ℚ)) (k : String) :
    ∀ q ∈ delPos ps k, q ∈ ps := by
  induction ps with
  | nil => intro q hq; simp [delPos] at hq
  | cons hd tl ih =>
    obtain ⟨k', y⟩ := hd
    intro q hq
    by_cases h : k' = k
    · simp only [delPos, if_pos h] at hq
      exact List.mem_cons_of_mem _ hq
    · simp only [delPos, if_neg h] at hq
      rcases List.mem_cons.mp hq with h1 | h2
      · exact h1 ▸ List.mem_cons_self _ _
      · exact List.mem_cons_of_mem _ (ih q h2)

/-- The position computed for one vehicle never exceeds the edge length,
provided the leader's stored position does not. -/
theorem fluidNewPos_le (d : Nat) (cs sf : ℚ) (variance : Nat → ℚ)
    (ps : List (String × ℚ)) (lp : Option ℚ) (vid : String) (k : Nat)
    (hlp : ∀ x, lp = some x → x ≤ (d : ℚ)) :
    fluidNewPos d cs sf variance ps lp vid k ≤ (d : ℚ) := by
  cases lp with
  | none =>
    simp only [fluidNewPos]
    split_ifs with h1 <;> linarith [h1]
  | some lpv =>
    have hl := hlp lpv rfl
    simp only [fluidNewPos]
    split_ifs with h1 h2 h2 <;> linarith

/-- After the update loop, every stored position is at most the edge
length. -/
theorem fluidUpdateGo_le (d : Nat) (cs sf : ℚ) (variance : Nat → ℚ)
    (l : List String) :
    ∀ (ps : List (String × ℚ)) (lp : Option ℚ) (k : Nat),
      (∀ q ∈ ps, q.2 ≤ (d : ℚ)) → (∀ x, lp = some x → x ≤ (d : ℚ)) →
      ∀ q ∈ fluidUpdateGo d cs sf variance l ps lp k, q.2 ≤ (d : ℚ) := by
  induction l with
  | nil =>
    intro ps lp k hps _ q hq
    simp only [fluidUpdateGo] at hq
    exact hps q hq
  | cons vid rest ih =>
    intro ps lp k hps hlp q hq
    simp only [fluidUpdateGo] at hq
    have hnp := fluidNewPos_le d cs sf variance ps lp vid k hlp
    refine ih _ _ _ ?_ ?_ q hq
    · intro q' hq'
      rcases setPos_mem ps vid _ q' hq' with h1 | h2
      · rw [h1]; exact hnp
      · exact hps q' h2
    · intro x hx
      rw [Option.some.injEq] at hx
      exact hx ▸ hnp

/-- `insert_vehicle` preserves the fluid-edge invariant. -/
theorem fluidInv_insert (e : FluidEdge) (vid : String) (h : FluidInv e) :
    FluidInv (e.insert_vehicle vid).1 := by
  unfold FluidEdge.insert_vehicle
  by_cases hf : (e.vehicles.length : Int) ≥ e.max_vehicles
  · rw [if_pos hf]; exact h
  · rw [if_neg hf]
    constructor
    · have h1 := le_max_left e.max_vehicles (0 : Int)
      simp only [FluidEdge.max_vehicles] at hf h1 ⊢
      simp only [List.length_append, List.length_cons, List.length_nil]
      push_cast
      omega
    · intro q hq
      rcases setPos_mem e.positions vid 0 q hq with h1 | h2
      · rw [h1]; exact Nat.cast_nonneg _
      · exact h.2 q h2

/-- `update` preserves the fluid-edge invariant. -/
theorem fluidInv_update (e : FluidEdge) (variance : Nat → ℚ)
    (h : FluidInv e) : FluidInv (e.update variance) := by
  unfold FluidEdge.update
  by_cases hc : e.vehicles.length = 0
  · rw [if_pos hc]; exact h
  · rw [if_neg hc]
    refine ⟨h.1, ?_⟩
    intro q hq
    refine fluidUpdateGo_le e.distance _ _ variance _ e.positions none 0
      h.2 ?_ q hq
    intro x hx
    exact absurd hx (by simp)

/-- `pop_last_vehicle` preserves the fluid-edge invariant. -/
theorem fluidInv_pop (e : FluidEdge) (h : FluidInv e) :
    FluidInv (e.pop_last_vehicle).2 := by
  unfold FluidEdge.pop_last_vehicle
  cases hp : e.peek_last_vehicle with
  | none => exact h
  | some l =>
    constructor
    · have hlen : (e.vehicles.erase l).length ≤ e.vehicles.length :=
        List.Sublist.length_le (List.erase_sublist _ _)
      have h1 := h.1
      simp only [FluidEdge.max_vehicles] at h1 ⊢
      omega
    · intro q hq
      exact h.2 q (delPos_subset _ _ q hq)

/-- The invariant holds after any operation sequence from a fresh edge. -/
theorem fluidInv_applyOps (e : FluidEdge) (ops : List FluidOp)
    (h : FluidInv e) : FluidInv (e.applyOps ops) := by
  induction ops generalizing e with
  | nil => exact h
  | cons op rest ih =>
    cases op with
    | insert vid => exact ih _ (fluidInv_insert e vid h)
    | update variance => exact ih _ (fluidInv_update e variance h)
    | pop => exact ih _ (fluidInv_pop e h)

/-- C5 counterexample: two consecutive insertions both place their vehicle
at position 0.0, violating the half-meter gap, and the next update clamps
the follower to `leader - 0.5 = -0.5`, driving its position below 0. -/
theorem claim_C5_counterexample :
    ((((FluidEdge.init 10 5 (1/5)).applyOps
        [FluidOp.insert "a", FluidOp.insert "b"]).positions.lookup "b").getD 0
      > (((FluidEdge.init 10 5 (1/5)).applyOps
        [FluidOp.insert "a", FluidOp.insert "b"]).positions.lookup "a").getD 0
        - 1/2)
    ∧ ((((FluidEdge.init 10 5 (1/5)).applyOps
        [FluidOp.insert "a", FluidOp.insert "b",
         FluidOp.update (fun _ => 1)]).positions.lookup "b").getD 0 < 0) := by
  have hab : ¬ (("a" : String) = "b") := by decide
  have hba : (("b" : String) == "a") = false := by decide
  have hbb : (("b" : String) == "b") = true := by decide
  have haa : (("a" : String) == "a") = true := by decide
  have h2 : (FluidEdge.init 10 5 (1/5)).applyOps
      [FluidOp.insert "a", FluidOp.insert "b"] =
      { distance := 10, vmax := 5, density_max := 1/5,
        vehicles := ["a", "b"], positions := [("a", 0), ("b", 0)] } := by
    norm_num [FluidEdge.applyOps, FluidEdge.apply, FluidEdge.insert_vehicle,
      FluidEdge.max_vehicles, pyInt, FluidEdge.init, setPos, List.foldl, hab]
  have h3 : (FluidEdge.init 10 5 (1/5)).applyOps
      [FluidOp.insert "a", FluidOp.insert "b", FluidOp.update (fun _ => 1)] =
      { distance := 10, vmax := 5, density_max := 1/5,
        vehicles := ["a", "b"], positions := [("a", 0), ("b", -(1/2))] } := by
    have hstep : (FluidEdge.init 10 5 (1/5)).applyOps
        [FluidOp.insert "a", FluidOp.insert "b", FluidOp.update (fun _ => 1)] =
        ((FluidEdge.init 10 5 (1/5)).applyOps
          [FluidOp.insert "a", FluidOp.insert "b"]).update (fun _ => 1) := rfl
    rw [hstep, h2]
    norm_num [FluidEdge.update, fluidSortDesc, fluidSortInsert, List.foldl,
      fluidUpdateGo, fluidNewPos, setPos, List.lookup, hab, hba, hbb, haa]
  rw [h2, h3]
  norm_num [List.lookup, hba, hbb]

/-- C5 (amended): under every sequence of insert_vehicle, update and
pop_last_vehicle calls from a fresh FluidEdge, get_occupation_ratio() lies
within [0, 1] (the vehicle count never exceeds the capacity), and no
vehicle's position ever exceeds `distance`; but positions are not bounded
below by 0 and the half-meter separation can be violated (see the
counterexample: two insertions at position 0, and a clamped follower at
-0.5). -/
theorem claim_C5_fluid_invariant (distance : Nat) (vmax density_max : ℚ)
    (ops : List FluidOp) :
    (0 ≤ ((FluidEdge.init distance vmax density_max).applyOps
        ops).get_occupation_ratio
      ∧ ((FluidEdge.init distance vmax density_max).applyOps
        ops).get_occupation_ratio ≤ 1)
    ∧ ∀ q ∈ ((FluidEdge.init distance vmax density_max).applyOps
        ops).positions, q.2 ≤ (distance : ℚ) := by
  have hinv : FluidInv ((FluidEdge.init distance vmax density_max).applyOps
      ops) := by
    refine fluidInv_applyOps _ ops ⟨?_, ?_⟩
    · simp [FluidEdge.init, le_max_right]
    · intro q hq
      simp [FluidEdge.init] at hq
  have hdist : ((FluidEdge.init distance vmax density_max).applyOps
      ops).distance = distance := by
    have hgen : ∀ (e : FluidEdge) (l : List FluidOp),
        (e.applyOps l).distance = e.distance := by
      intro e l
      induction l generalizing e with
      | nil => rfl
      | cons op rest ih =>
        cases op with
        | insert vid =>
          rw [FluidEdge.applyOps, List.foldl_cons, ← FluidEdge.applyOps, ih]
          unfold FluidEdge.apply FluidEdge.insert_vehicle
          split_ifs <;> rfl
        | update variance =>
          rw [FluidEdge.applyOps, List.foldl_cons, ← FluidEdge.applyOps, ih]
          unfold FluidEdge.apply FluidEdge.update
          split_ifs <;> rfl
        | pop =>
          rw [FluidEdge.applyOps, List.foldl_cons, ← FluidEdge.applyOps, ih]
          unfold FluidEdge.apply FluidEdge.pop_last_vehicle
          cases (e.apply FluidOp.pop).peek_last_vehicle <;> simp <;>
            cases e.peek_last_vehicle <;> rfl
    exact hgen _ _
  have hden : (0 : ℚ) <
      ((max ((FluidEdge.init distance vmax density_max).applyOps
        ops).max_vehicles 1 : Int) : ℚ) := by
    have : (0 : Int) < max ((FluidEdge.init distance vmax density_max).applyOps
        ops).max_vehicles 1 := lt_of_lt_of_le Int.one_pos (le_max_right _ _)
    exact_mod_cast this
  refine ⟨⟨?_, ?_⟩, ?_⟩
  · exact div_nonneg (Nat.cast_nonneg _) hden.le
  · unfold FluidEdge.get_occupation_ratio
    rw [div_le_one hden]
    have h1 := hinv.1
    have h2 : (((FluidEdge.init distance vmax density_max).applyOps
        ops).vehicles.length : Int) ≤
        max ((FluidEdge.init distance vmax density_max).applyOps
          ops).max_vehicles 1 := by
      refine le_trans h1 (max_le_max (le_refl _) ?_)
      norm_num
    exact_mod_cast h2
  · intro q hq
    have := hinv.2 q hq
    rwa [hdist] at this

/-- C7: both default cost functions never return less than the static
free-flow cost, and an empty edge is charged exactly the free-flow cost:
`distance` for the cellular cost, `distance / vmax` for the fluid cost. -/
theorem claim_C7_cost_at_least_free_flow (ce : CellularEdge) (fe : FluidEdge)
    (hcd : 0 < ce.distance) (hcv : 0 < ce.vmax) (hfd : 0 < fe.distance)
    (hfv : 0 < fe.vmax) (hfdm : 0 < fe.density_max) :
    ((ce.distance : ℚ) ≤ ce.evaluate_weight)
    ∧ (ce.num_vehicles = 0 → ce.evaluate_weight = (ce.distance : ℚ))
    ∧ (∀ q, fe.evaluate_weight = PyFloat.fin q →
        (fe.distance : ℚ) / fe.vmax ≤ q)
    ∧ (fe.vehicles = [] →
        fe.evaluate_weight = PyFloat.fin ((fe.distance : ℚ) / fe.vmax)) := by
  have hd0 : (0 : ℚ) ≤ (ce.distance : ℚ) := Nat.cast_nonneg _
  refine ⟨?_, ?_, ?_, ?_⟩
  · simp only [CellularEdge.evaluate_weight]
    split_ifs <;> nlinarith
  · intro hz
    simp only [CellularEdge.evaluate_weight]
    rw [hz]
    norm_num
  · intro q hq
    simp only [FluidEdge.evaluate_weight] at hq
    by_cases hn : fe.vehicles.length = 0
    · rw [if_pos hn, if_pos hfv] at hq
      injection hq with h
      rw [h]
    · rw [if_neg hn] at hq
      set density : ℚ :=
        (fe.vehicles.length : ℚ) / (fe.distance : ℚ) with hdensity
      set sf : ℚ := max (1/100) (1 - (density / fe.density_max) ^ 2) with hsf
      have hsf_pos : 0 < sf :=
        lt_of_lt_of_le (by norm_num) (le_max_left _ _)
      have hsf_le : sf ≤ 1 := by
        apply max_le
        · norm_num
        · nlinarith [sq_nonneg (density / fe.density_max)]
      have hcs : 0 < fe.vmax * sf := mul_pos hfv hsf_pos
      rw [if_neg (not_le.mpr hcs)] at hq
      injection hq with h
      rw [← h]
      apply div_le_div_of_nonneg_left (Nat.cast_nonneg _) hcs
      nlinarith
  · intro he
    simp only [FluidEdge.evaluate_weight]
    rw [if_pos (by rw [he]; rfl), if_pos hfv]

/-- C7 witness: an empty 2-cell cellular edge costs 2 and an empty
10-meter fluid edge with vmax 5 costs time 2. -/
theorem claim_C7_cost_at_least_free_flow_witness :
    (CellularEdge.init 2 2 0).evaluate_weight = 2
    ∧ (FluidEdge.init 10 5 (1/5)).evaluate_weight = PyFloat.fin 2 := by
  have h := claim_C7_cost_at_least_free_flow (CellularEdge.init 2 2 0)
    (FluidEdge.init 10 5 (1/5)) (by decide) (by decide) (by decide)
    (by norm_num [FluidEdge.init]) (by norm_num [FluidEdge.init])
  constructor
  · rw [h.2.1 (by decide)]
    norm_num [CellularEdge.init]
  · rw [h.2.2.2 rfl]
    norm_num [FluidEdge.init]

end GuyeuxMobile
